import Mathlib

/-!
Verification development for the `onkyoctl` Go library.

The definitions in this file are a shallow embedding of the Go sources:

* `commands.go` (command codec: `SplitISCP`, `Command`, `formatOnOff`,
  `formatToggle`, `formatEnum`, `formatIntRange`, the `parse*` counterparts,
  and `basicCommandSet`),
* `message.go` (`EISCPMessage.Raw`, `ParseHeader`, `ParseEISCP`, `ParseISCP`),
* `device.go` (`Device.Start/Stop/SendISCP`, `BasicCommands`),
* the session client (`client.Send` / `client.doSend`).

Modelling conventions:

* Go byte strings are `List Nat` (one `Nat` per byte); friendly strings are
  Lean `String`s (all data handled by the library is ASCII, where Go byte
  indexing and Lean character indexing agree).
* Go `float64` arithmetic is modelled by exact fraction arithmetic on the
  `Frac` type (an integer numerator with a positive integer denominator).
  All values exercised by the specification scenarios are small dyadic
  rationals on which `float64` arithmetic is exact, so the embedding agrees
  with the code there; extreme magnitudes where `float64` rounds are
  outside the model.
* A Go `interface{}` parameter value is the inductive `GoValue`, which keeps
  the dynamic type tag, because Go interface comparison (`val == 1`) depends
  on the dynamic type.
* Go map iteration order is unspecified; lookup tables are association lists
  in source order and `formatEnum` scans in that order.  Theorems that
  depend on an iteration order are stated so that the conclusion holds for
  the scanning order fixed here, and order-independent facts are proved
  separately where it matters.
* A Go runtime panic (out-of-range slice) is the `GoOutcome.panics`
  constructor; `error` returns are `GoOutcome.err` / `Except.error`.
-/

deriving instance DecidableEq for Except

namespace Onkyoctl

/-- Dynamic type tag of a Go integer value (the type switch in
`formatOnOff` distinguishes these). -/
inductive IntType
| int | int8 | int16 | int32 | int64
| uint | uint8 | uint16 | uint32 | uint64
deriving DecidableEq, Repr

/-- Dynamic type tag of a Go floating point value. -/
inductive FloatType
| float32 | float64
deriving DecidableEq, Repr

/-- The exact value of a Go floating point number, as a fraction.  The
denominator is positive for every value the embedding constructs; theorems
that quantify over arbitrary fractions carry `0 < den` as a hypothesis. -/
structure Frac where
  num : Int
  den : Int
deriving DecidableEq, Repr

/-- The fraction for an integer. -/
def Frac.ofInt (n : Int) : Frac := ⟨n, 1⟩

/-- Multiply a fraction by an integer. -/
def Frac.mulInt (a : Frac) (s : Int) : Frac := ⟨a.num * s, a.den⟩

/-- Divide a fraction by a non-zero integer, keeping the denominator
positive. -/
def Frac.divInt (a : Frac) (s : Int) : Frac :=
  if s < 0 then ⟨-a.num, a.den * (-s)⟩ else ⟨a.num, a.den * s⟩

/-- Value order on fractions (cross multiplication; denominators are
positive). -/
def Frac.lt (a b : Frac) : Bool := a.num * b.den < b.num * a.den

/-- Does the fraction denote an integer? -/
def Frac.isInt (a : Frac) : Bool := a.num % a.den = 0

/-- The integer denoted by an integral fraction. -/
def Frac.toInt (a : Frac) : Int := a.num / a.den

/-- A Go `interface{}` value as passed to the parameter formatters.
`vOther` stands for any value of a type not handled by the type switches. -/
inductive GoValue
| vBool (b : Bool)
| vInt (t : IntType) (n : Int)
| vFloat (t : FloatType) (q : Frac)
| vString (s : String)
| vOther
deriving DecidableEq, Repr

/-- Go interface equality: dynamic types must agree and the dynamic values
must be equal.  Floats compare by value (a `float64` bit pattern denotes
exactly one rational). -/
def GoValue.eqv : GoValue → GoValue → Bool
| .vBool a, .vBool b => a == b
| .vInt t a, .vInt u b => t == u && a == b
| .vFloat t a, .vFloat u b => t == u && a.num * b.den == b.num * a.den
| .vString a, .vString b => a == b
| .vOther, .vOther => true
| _, _ => false

/-- Result of a Go function returning `(α, error)`, with an extra
constructor for a runtime panic. -/
inductive GoOutcome (α : Type)
| ok (a : α)
| err (e : String)
| panics
deriving DecidableEq, Repr

/-- Decimal digits, most significant first (fuel-based so that the kernel
can evaluate it; `natDigitsAux (n+1) n` never exhausts the fuel). -/
def natDigitsAux : Nat → Nat → List Nat
| 0, _ => []
| fuel + 1, n => if n < 10 then [n] else natDigitsAux fuel (n / 10) ++ [n % 10]

/-- Decimal digits of a natural number, most significant first. -/
def natDigits (n : Nat) : List Nat := natDigitsAux (n + 1) n

/-- Hexadecimal digits, most significant first (fuel-based). -/
def natHexDigitsAux : Nat → Nat → List Nat
| 0, _ => []
| fuel + 1, n => if n < 16 then [n] else natHexDigitsAux fuel (n / 16) ++ [n % 16]

/-- Hexadecimal digits of a natural number, most significant first. -/
def natHexDigits (n : Nat) : List Nat := natHexDigitsAux (n + 1) n

/-- The character for a decimal digit. -/
def digitChar (d : Nat) : Char := Char.ofNat (48 + d)

/-- The character for an uppercase hexadecimal digit (as Go's `%X`). -/
def hexDigitChar (d : Nat) : Char :=
  if d < 10 then Char.ofNat (48 + d) else Char.ofNat (55 + d)

/-- Decimal representation of a natural number. -/
def natDecimal (n : Nat) : String := String.mk ((natDigits n).map digitChar)

/-- Decimal representation of an integer (Go's `%v` on integers). -/
def intDecimal (n : Int) : String :=
  if n < 0 then "-" ++ natDecimal n.natAbs else natDecimal n.natAbs

/-- Go's `fmt.Sprintf("%X", n)` on an `int`: uppercase hexadecimal,
a leading minus sign for negative values. -/
def goFmtX (n : Int) : String :=
  if n < 0 then "-" ++ String.mk ((natHexDigits n.natAbs).map hexDigitChar)
  else String.mk ((natHexDigits n.natAbs).map hexDigitChar)

/-- ASCII lowercasing of one character (`strings.ToLower` on the ASCII
data this library handles). -/
def goToLowerChar (c : Char) : Char :=
  if 65 ≤ c.toNat ∧ c.toNat ≤ 90 then Char.ofNat (c.toNat + 32) else c

/-- ASCII lowercasing of a string. -/
def goToLower (s : String) : String := String.mk (s.data.map goToLowerChar)

/-- Is this character an ASCII decimal digit? -/
def isDigitB (c : Char) : Bool := 48 ≤ c.toNat && c.toNat ≤ 57

/-- Is this character an ASCII hexadecimal digit? -/
def isHexDigitB (c : Char) : Bool :=
  isDigitB c || (65 ≤ c.toNat && c.toNat ≤ 70) || (97 ≤ c.toNat && c.toNat ≤ 102)

/-- Numeric value of a hexadecimal digit character. -/
def hexVal (c : Char) : Nat :=
  if isDigitB c then c.toNat - 48
  else if 65 ≤ c.toNat && c.toNat ≤ 70 then c.toNat - 55
  else c.toNat - 87

/-- Value of a list of decimal digit characters. -/
def decValue (l : List Char) : Nat := l.foldl (fun a c => a * 10 + (c.toNat - 48)) 0

/-- Value of a list of hexadecimal digit characters. -/
def hexValue (l : List Char) : Nat := l.foldl (fun a c => a * 16 + hexVal c) 0

/-- Split an optional leading sign from a character list; returns the sign
(`1` or `-1`) and the remainder. -/
def splitSign : List Char → Int × List Char
| '+' :: r => (1, r)
| '-' :: r => (-1, r)
| r => (1, r)

/-- Go `strconv.ParseInt(s, 10, 0)` (= `strconv.Atoi`): optional sign, one
or more decimal digits, value must fit in a 64-bit `int`. -/
def goAtoi (s : String) : Option Int :=
  let p := splitSign s.data
  if p.2 ≠ [] ∧ p.2.all isDigitB then
    let v : Int := p.1 * (decValue p.2 : Int)
    if -(2 ^ 63) ≤ v ∧ v < 2 ^ 63 then some v else none
  else none

/-- Go `strconv.ParseInt(s, 16, 64)`: optional sign, one or more hex
digits (no `0x` prefix when the base is given), 64-bit range check. -/
def goParseIntHex (s : String) : Option Int :=
  let p := splitSign s.data
  if p.2 ≠ [] ∧ p.2.all isHexDigitB then
    let v : Int := p.1 * (hexValue p.2 : Int)
    if -(2 ^ 63) ≤ v ∧ v < 2 ^ 63 then some v else none
  else none

/-- Go `strconv.ParseBool`: exactly these string forms are accepted. -/
def goParseBool (s : String) : Option Bool :=
  if s = "1" ∨ s = "t" ∨ s = "T" ∨ s = "TRUE" ∨ s = "true" ∨ s = "True" then some true
  else if s = "0" ∨ s = "f" ∨ s = "F" ∨ s = "FALSE" ∨ s = "false" ∨ s = "False" then some false
  else none

/-- Go `strconv.ParseFloat(s, 64)` on plain decimal syntax
(`[+-]digits[.digits][(e|E)[+-]digits]`), read exactly as a fraction.
Go additionally accepts `inf`/`nan`, hexadecimal floats and digit-group
underscores, which the library's inputs never use. -/
def goParseFloat (s : String) : Option Frac :=
  let p := splitSign s.data
  let sign := p.1
  let ip := p.2.takeWhile isDigitB
  let r1 := p.2.dropWhile isDigitB
  let fr :=
    match r1 with
    | '.' :: r => (r.takeWhile isDigitB, r.dropWhile isDigitB)
    | r => ([], r)
  let fp := fr.1
  if ip = [] ∧ fp = [] then none
  else
    let num0 : Int := (decValue ip : Int) * 10 ^ fp.length + (decValue fp : Int)
    let den0 : Int := 10 ^ fp.length
    match fr.2 with
    | [] => some ⟨sign * num0, den0⟩
    | 'e' :: r3 =>
      let ep := splitSign r3
      if ep.2 ≠ [] ∧ ep.2.all isDigitB then
        let ex : Int := ep.1 * (decValue ep.2 : Int)
        if 0 ≤ ex then some ⟨sign * num0 * 10 ^ ex.toNat, den0⟩
        else some ⟨sign * num0, den0 * 10 ^ (-ex).toNat⟩
      else none
    | 'E' :: r3 =>
      let ep := splitSign r3
      if ep.2 ≠ [] ∧ ep.2.all isDigitB then
        let ex : Int := ep.1 * (decValue ep.2 : Int)
        if 0 ≤ ex then some ⟨sign * num0 * 10 ^ ex.toNat, den0⟩
        else some ⟨sign * num0, den0 * 10 ^ (-ex).toNat⟩
      else none
    | _ => none

/-- Smallest `e ≤ 64` such that `a * 10^e` is an integer, if any.  All
denominators produced by the library divide `2^63 * 10^k`, so the bound is
never reached on the modelled domain. -/
def minTermExp (a : Frac) : Option Nat :=
  (List.range 65).find? (fun e => (a.num * 10 ^ e) % a.den == 0)

/-- Strip trailing decimal zeros (fuel-based); returns the stripped number
and how many zeros were removed. -/
def stripZerosAux : Nat → Nat → Nat × Nat
| 0, n => (n, 0)
| fuel + 1, n =>
  if n % 10 = 0 ∧ n ≠ 0 then
    let p := stripZerosAux fuel (n / 10)
    (p.1, p.2 + 1)
  else (n, 0)

/-- Strip trailing decimal zeros. -/
def stripZeros (n : Nat) : Nat × Nat := stripZerosAux (n + 1) n

/-- Fixed-point rendering of `M * 10^(-e)` for `M ≠ 0`, as Go prints it. -/
def fixedRender (M e : Nat) : String :=
  let ds := (natDigits M).map digitChar
  if e = 0 then String.mk ds
  else if e < ds.length then
    String.mk (ds.take (ds.length - e) ++ ['.'] ++ ds.drop (ds.length - e))
  else
    String.mk (['0', '.'] ++ List.replicate (e - ds.length) '0' ++ ds)

/-- Scientific rendering (Go's `%e`-style branch of `%v`):
mantissa digits of `M` with trailing zeros stripped, then `e±XX`. -/
def sciRender (M : Nat) (exp : Int) : String :=
  let m := (stripZeros M).1
  let ds := (natDigits m).map digitChar
  let mant :=
    match ds with
    | [d] => [d]
    | d :: rest => d :: '.' :: rest
    | [] => []
  let es := if exp < 0 then '-' else '+'
  let ed := (natDigits exp.natAbs).map digitChar
  let ed2 := if ed.length < 2 then '0' :: ed else ed
  String.mk (mant ++ ['e', es] ++ ed2)

/-- The digits-and-exponent step of Go's `%v` float formatting: render
`|a| = M * 10^(-e)` in fixed-point notation when the decimal exponent is
in `[-4, 21)` and in scientific notation otherwise. -/
def goFormatFloatCore (a : Frac) (e : Nat) : String :=
  let M := (((a.num.natAbs : Int) * 10 ^ e) / a.den).toNat
  let nd := (natDigits M).length
  let exp : Int := (nd : Int) - 1 - (e : Int)
  if -4 ≤ exp ∧ exp < 21 then fixedRender M e
  else sciRender M exp

/-- Go's `fmt.Sprintf("%v", f)` for a `float64`, on fractions with a
terminating decimal expansion: shortest digits, fixed-point notation when
the decimal exponent is in `[-4, 21)` and scientific notation otherwise
(this is `strconv.FormatFloat(f, 'g', -1, 64)`).  For values whose
shortest `float64` representation is not their exact decimal expansion the
code prints a 17-digit approximation; those are outside the modelled
domain and map to a placeholder here. -/
def goFormatFloat (a : Frac) : String :=
  if a.num = 0 then "0"
  else
    let sign := if a.num < 0 then "-" else ""
    match minTermExp a with
    | none => sign ++ "<float64-approx>"
    | some e => sign ++ goFormatFloatCore a e

/-- Go's `fmt.Sprintf("%v", raw)` for the values `formatEnum` receives. -/
def goSprintfV : GoValue → String
| .vBool b => if b then "true" else "false"
| .vInt _ n => intDecimal n
| .vFloat _ q => goFormatFloat q
| .vString s => s
| .vOther => "<other>"

/-- The boolean and numeric branches of `formatOnOff`.  The numeric case
keeps `val` at type `interface{}` (the type-switch case lists multiple
types), so `val == 1` only matches dynamic type `int` with value 1 and
`val == 1.0` only dynamic type `float64` with value 1.0.  The string
branch of the Go code recurses into exactly these branches. -/
def formatOnOffScalar (raw : GoValue) : Except String String :=
  match raw with
  | .vBool b => if b then .ok "01" else .ok "00"
  | v =>
    if v.eqv (.vInt .int 1) || v.eqv (.vFloat .float64 (Frac.ofInt 1)) then .ok "01"
    else if v.eqv (.vInt .int 0) || v.eqv (.vFloat .float64 (Frac.ofInt 0)) then .ok "00"
    else .error "invalid parameter"

/-- `formatOnOff` from commands.go.  The string branch first matches
case-insensitive `on`/`off`, then tries `strconv.ParseBool`, then
`strconv.Atoi`, recursing into the boolean/integer branch
(`formatOnOffScalar`). -/
def formatOnOff (raw : GoValue) : Except String String :=
  match raw with
  | .vString s =>
    let find := goToLower s
    if find = "on" then .ok "01"
    else if find = "off" then .ok "00"
    else
      match goParseBool s with
      | some b => formatOnOffScalar (.vBool b)
      | none =>
        match goAtoi s with
        | some i => formatOnOffScalar (.vInt .int i)
        | none => .error "invalid parameter"
  | .vOther => .error "invalid parameter"
  | v => formatOnOffScalar v

/-- `parseOnOff` from commands.go. -/
def parseOnOff (raw : String) : Except String String :=
  if raw = "00" then .ok "off"
  else if raw = "01" then .ok "on"
  else .error "invalid parameter"

/-- `formatToggle` from commands.go. -/
def formatToggle (raw : GoValue) : Except String String :=
  match raw with
  | .vString s =>
    let l := goToLower s
    if l = "" ∨ l = "toggle" ∨ l = "tg" then .ok "TG" else .error "invalid parameter"
  | _ => .error "invalid parameter"

/-- `parseToggle` from commands.go. -/
def parseToggle (raw : String) : Except String String :=
  if raw = "TG" then .ok "toggle" else .error "invalid parameter"

/-- `formatOnOffToggle` from commands.go. -/
def formatOnOffToggle (raw : GoValue) : Except String String :=
  match formatToggle raw with
  | .ok r => .ok r
  | .error _ => formatOnOff raw

/-- `parseOnOffToggle` from commands.go. -/
def parseOnOffToggle (raw : String) : Except String String :=
  match parseToggle raw with
  | .ok r => .ok r
  | .error _ => parseOnOff raw

/-- `formatEnum` from commands.go: stringify and lowercase the input, then
scan the lookup table for a key whose value matches.  (The Go code ranges
over a map in unspecified order; here the association list is scanned in
source order.) -/
def formatEnum (lookup : List (String × String)) (raw : GoValue) : Except String String :=
  let s := goToLower (goSprintfV raw)
  match lookup.find? (fun kv => kv.2 = s) with
  | some kv => .ok kv.1
  | none => .error "invalid parameter"

/-- `parseEnum` from commands.go: direct map lookup of the raw key. -/
def parseEnum (lookup : List (String × String)) (raw : String) : Except String String :=
  match lookup.find? (fun kv => kv.1 = raw) with
  | some kv => .ok kv.2
  | none => .error "invalid parameter"

/-- `formatEnumToggle` from commands.go. -/
def formatEnumToggle (lookup : List (String × String)) (raw : GoValue) : Except String String :=
  match formatToggle raw with
  | .ok r => .ok r
  | .error _ => formatEnum lookup raw

/-- `parseEnumToggle` from commands.go. -/
def parseEnumToggle (lookup : List (String × String)) (raw : String) : Except String String :=
  match parseToggle raw with
  | .ok r => .ok r
  | .error _ => parseEnum lookup raw

/-- The output shape claimed for `formatIntRange`: uppercase hex digits
only, an even number of them, at least two. -/
def isUpperHexDigit (c : Char) : Bool :=
  isDigitB c || (65 ≤ c.toNat && c.toNat ≤ 70)

/-- Uppercase hex digits only, an even count, at least two. -/
def evenHexDigitsMin2 (s : String) : Bool :=
  s.data.all isUpperHexDigit && s.length % 2 == 0 && decide (2 ≤ s.length)

/-- Zero-pad a string to even length (the final step of `formatIntRange`). -/
def padEven (s : String) : String :=
  if s.length % 2 ≠ 0 then "0" ++ s else s

/-- Numeric conversion at the head of `formatIntRange`: every integer and
float type is converted to `float64` (exact here), a string goes through
`strconv.ParseFloat`, anything else is invalid. -/
def intRangeNumeric (raw : GoValue) : Except String Frac :=
  match raw with
  | .vInt _ n => .ok (Frac.ofInt n)
  | .vFloat _ q => .ok q
  | .vString s =>
    match goParseFloat s with
    | some q => .ok q
    | none => .error "conversion error"
  | _ => .error "invalid parameter"

/-- `formatIntRange` from commands.go: convert to `float64`, check
`lower ≤ value ≤ upper` on the unscaled value, multiply by the scale
(0 treated as 1), reject if rounding would change the scaled value
(i.e. the scaled value is not an integer), then print `%X` and zero-pad
to an even string length. -/
def formatIntRange (lower upper scale : Int) (raw : GoValue) : Except String String :=
  match intRangeNumeric raw with
  | .error e => .error e
  | .ok numeric =>
    if numeric.lt (Frac.ofInt lower) || (Frac.ofInt upper).lt numeric then
      .error "invalid parameter"
    else
      let scale' : Int := if scale = 0 then 1 else scale
      let scaled := numeric.mulInt scale'
      if ¬scaled.isInt then .error "invalid parameter"
      else .ok (padEven (goFmtX scaled.toInt))

/-- `parseIntRange` from commands.go: parse the payload as a hexadecimal
integer, divide by the scale (0 treated as 1), check the bounds on the
quotient, and print the quotient with Go's `%v` float formatting. -/
def parseIntRange (lower upper scale : Int) (raw : String) : Except String String :=
  match goParseIntHex raw with
  | none => .error "parse error"
  | some numeric =>
    let scale' : Int := if scale = 0 then 1 else scale
    let downscaled := (Frac.ofInt numeric).divInt scale'
    if downscaled.lt (Frac.ofInt lower) || (Frac.ofInt upper).lt downscaled then
      .error "invalid parameter"
    else .ok (goFormatFloat downscaled)

/-- `formatIntRangeEnum` from commands.go. -/
def formatIntRangeEnum (lower upper scale : Int) (lookup : List (String × String))
    (raw : GoValue) : Except String String :=
  match formatIntRange lower upper scale raw with
  | .ok r => .ok r
  | .error _ => formatEnum lookup raw

/-- `parseIntRangeEnum` from commands.go. -/
def parseIntRangeEnum (lower upper scale : Int) (lookup : List (String × String))
    (raw : String) : Except String String :=
  match parseIntRange lower upper scale raw with
  | .ok r => .ok r
  | .error _ => parseEnum lookup raw

/-- `SplitISCP` from commands.go: `s[0:3]` and `s[3:]`.  The slice
expression panics (`none`) when the command has fewer than 3 characters. -/
def splitISCP (s : String) : Option (String × String) :=
  if 3 ≤ s.length then some (String.mk (s.data.take 3), String.mk (s.data.drop 3))
  else none

/-- The `Command` struct from commands.go.  `paramType` is a string in the
source (a file-driven discriminator), kept as a string here. -/
structure Command where
  name : String
  group : String
  paramType : String
  lookup : List (String × String)
  lower : Int
  upper : Int
  scale : Int
deriving DecidableEq, Repr

/-- `Command.CreateQuery`. -/
def Command.createQuery (c : Command) : String := c.group ++ "QSTN"

/-- `Command.formatParam`: dispatch on the `paramType` string. -/
def Command.formatParam (c : Command) (raw : GoValue) : Except String String :=
  if c.paramType = "onOff" then formatOnOff raw
  else if c.paramType = "onOffToggle" then formatOnOffToggle raw
  else if c.paramType = "enum" then formatEnum c.lookup raw
  else if c.paramType = "enumToggle" then formatEnumToggle c.lookup raw
  else if c.paramType = "intRange" then formatIntRange c.lower c.upper c.scale raw
  else if c.paramType = "intRangeEnum" then
    formatIntRangeEnum c.lower c.upper c.scale c.lookup raw
  else .error "unsupported param type"

/-- `Command.ParseParam`: dispatch on the `paramType` string. -/
def Command.parseParam (c : Command) (raw : String) : Except String String :=
  if c.paramType = "onOff" then parseOnOff raw
  else if c.paramType = "onOffToggle" then parseOnOffToggle raw
  else if c.paramType = "enum" then parseEnum c.lookup raw
  else if c.paramType = "enumToggle" then parseEnumToggle c.lookup raw
  else if c.paramType = "intRange" then parseIntRange c.lower c.upper c.scale raw
  else if c.paramType = "intRangeEnum" then
    parseIntRangeEnum c.lower c.upper c.scale c.lookup raw
  else .error "unsupported param type"

/-- `Command.CreateCommand`: format the parameter and prepend the group. -/
def Command.createCommand (c : Command) (raw : GoValue) : Except String String :=
  match c.formatParam raw with
  | .error e => .error e
  | .ok p => .ok (c.group ++ p)

/-- The `byName` index of `NewBasicCommandSet`: entries with an empty name
are skipped, and on duplicate names the last entry wins (Go map insert). -/
def byName (cmds : List Command) (k : String) : Option Command :=
  (cmds.filter (fun c => c.name == k && c.name != "")).getLast?

/-- The `byGroup` index of `NewBasicCommandSet`: entries with an empty
group are skipped, last entry wins. -/
def byGroup (cmds : List Command) (k : String) : Option Command :=
  (cmds.filter (fun c => c.group == k && c.group != "")).getLast?

/-- `basicCommandSet.ReadCommand`: split the ISCP command (panics on
commands shorter than 3 characters), look up the group and parse the
parameter. -/
def readCommand (cmds : List Command) (command : String) : GoOutcome (String × String) :=
  match splitISCP command with
  | none => .panics
  | some (group, param) =>
    match byGroup cmds group with
    | none => .err "unknown ISCP command"
    | some c =>
      match c.parseParam param with
      | .error e => .err e
      | .ok value => .ok (c.name, value)

/-- `basicCommandSet.CreateCommand`: look up by friendly name, then
`Command.CreateCommand`. -/
def createCommand (cmds : List Command) (name : String) (param : GoValue) :
    Except String String :=
  match byName cmds name with
  | none => .error "unknown command"
  | some c => c.createCommand param

/-- `basicCommandSet.CreateQuery`. -/
def createQuery (cmds : List Command) (name : String) : Except String String :=
  match byName cmds name with
  | none => .error "unknown command"
  | some c => .ok c.createQuery

/-- The lookup table of the `listen-mode` entry of `BasicCommands`
(device.go): both `"00"` and `"STEREO"` map to `"stereo"`. -/
def listenModeLookup : List (String × String) :=
  [("00", "stereo"), ("STEREO", "stereo"), ("01", "direct"), ("11", "pure")]

/-- The `power` entry of `BasicCommands`. -/
def powerCommand : Command := ⟨"power", "PWR", "onOff", [], 0, 0, 0⟩

/-- The `volume` entry of `BasicCommands`. -/
def volumeCommand : Command :=
  ⟨"volume", "MVL", "intRangeEnum", [("UP", "up"), ("DOWN", "down")], 0, 100, 2⟩

/-- The `mute` entry of `BasicCommands`. -/
def muteCommand : Command := ⟨"mute", "AMT", "onOffToggle", [], 0, 0, 0⟩

/-- The `speaker-a` entry of `BasicCommands`. -/
def speakerACommand : Command := ⟨"speaker-a", "SPA", "onOff", [], 0, 0, 0⟩

/-- The `speaker-b` entry of `BasicCommands`. -/
def speakerBCommand : Command := ⟨"speaker-b", "SPB", "onOff", [], 0, 0, 0⟩

/-- The `dimmer` entry of `BasicCommands`. -/
def dimmerCommand : Command :=
  ⟨"dimmer", "DIM", "enum",
    [("00", "bright"), ("01", "dim"), ("02", "dark"), ("03", "off"), ("08", "led-off")],
    0, 0, 0⟩

/-- The `display` entry of `BasicCommands`. -/
def displayCommand : Command :=
  ⟨"display", "DIF", "enumToggle",
    [("00", "default"), ("01", "listening"), ("02", "source"), ("03", "mode-4")],
    0, 0, 0⟩

/-- The `input` entry of `BasicCommands`. -/
def inputCommand : Command :=
  ⟨"input", "SLI", "enum",
    [("00", "video-1"), ("01", "cbl-sat"), ("02", "game"), ("03", "aux1"), ("20", "tv-tape")],
    0, 0, 0⟩

/-- The `listen-mode` entry of `BasicCommands`. -/
def listenModeCommand : Command := ⟨"listen-mode", "LMD", "enum", listenModeLookup, 0, 0, 0⟩

/-- The `update` entry of `BasicCommands`. -/
def updateCommand : Command :=
  ⟨"update", "UPD", "enum", [("00", "no-new-firmware"), ("01", "new-firmware")], 0, 0, 0⟩

/-- `BasicCommands` from device.go, in source order. -/
def basicCommands : List Command :=
  [powerCommand, volumeCommand, muteCommand, speakerACommand, speakerBCommand,
   dimmerCommand, displayCommand, inputCommand, listenModeCommand, updateCommand]

/-- Wire-side round trip for one command definition and one raw payload
token: parse the token and format the friendly value back. -/
def wireRT (c : Command) (r : String) : Bool :=
  match c.parseParam r with
  | .ok v => decide (c.formatParam (.vString v) = .ok r)
  | .error _ => false

/-- Wire round trips for a list of raw tokens. -/
def wireRTall (c : Command) (rs : List String) : Bool := rs.all (wireRT c)

/-- The listen-mode lookup with the two `"stereo"` aliases in the
opposite relative order.  Go iterates a map in unspecified order, so any
relative order of the two aliases can occur on a given run; theorems
about the listen-mode round trip quantify over all permutations of the
lookup. -/
def listenModeLookupAlt : List (String × String) :=
  [("STEREO", "stereo"), ("00", "stereo"), ("01", "direct"), ("11", "pure")]

/-- Wire round trip of one raw token through `parseEnum`/`formatEnum`
over a given iteration order `L` of a lookup table. -/
def enumWireRT (L : List (String × String)) (r : String) : Bool :=
  match parseEnum L r with
  | .ok v => decide (formatEnum L (.vString v) = .ok r)
  | .error _ => false

/-- One scaled value of the volume IntRange round trip: formatting the
string that `parseIntRange` prints for the quotient `n / 2` yields the
canonical even-padded uppercase hex of `n`. -/
def volumeHexRT (n : Nat) : Bool :=
  decide (volumeCommand.formatParam
      (.vString (goFormatFloat ((Frac.ofInt (n : Int)).divInt 2))) =
    .ok (padEven (goFmtX (n : Int))))

/-! ### The eISCP frame codec (message.go), on byte lists -/

/-- Bytes of an ASCII string. -/
def stringBytes (s : String) : List Nat := s.data.map Char.toNat

/-- `binary.BigEndian.PutUint32`. -/
def be32 (n : Nat) : List Nat :=
  [n / 2 ^ 24 % 256, n / 2 ^ 16 % 256, n / 2 ^ 8 % 256, n % 256]

/-- `binary.BigEndian.Uint32` of four bytes. -/
def be32val (a b c d : Nat) : Nat := ((a * 256 + b) * 256 + c) * 256 + d

/-- `EISCPMessage.Raw` for the message wrapping command `c` (bytes):
16-byte header (magic `ISCP`, header length 16, payload length as
`uint32`, version 1, three zero bytes) followed by the payload
`"!1" + c + "\r\n"`. -/
def rawEISCP (c : List Nat) : List Nat :=
  let payload := [33, 49] ++ c ++ [13, 10]
  [73, 83, 67, 80] ++ be32 16 ++ be32 (payload.length % 2 ^ 32) ++ [1, 0, 0, 0] ++ payload

/-- Strip one inbound terminator from a *reversed* byte list, mirroring
the index arithmetic of `ParseISCP`: if the last byte is CR consume it;
else if it is LF consume it and also a CR right before it. -/
def stripTerm (r : List Nat) : List Nat :=
  match r with
  | b :: rest =>
    if b = 13 then rest
    else if b = 10 then
      match rest with
      | b2 :: rest2 => if b2 = 13 then rest2 else rest
      | [] => rest
    else r
  | [] => r

/-- Strip one trailing `0x1A` (EOF) from a *reversed* byte list. -/
def stripEOFByte (r : List Nat) : List Nat :=
  match r with
  | b :: rest => if b = 26 then rest else r
  | [] => r

/-- `ParseISCP` from message.go: at least 5 bytes, `!1` at the start, then
strip one terminator (CR, LF or CRLF) from the end and after that one
optional `0x1A`; the rest is the command.  (The catch-all branch is
unreachable: the length guard admits only lists of at least 5 bytes.) -/
def parseISCP (data : List Nat) : Except String (List Nat) :=
  if data.length < 5 then .error "ISCP message too short"
  else
    match data with
    | b0 :: b1 :: body =>
      if b0 ≠ 33 then .error "missing start character"
      else if b1 ≠ 49 then .error "missing receiver type"
      else .ok (stripEOFByte (stripTerm body.reverse)).reverse
    | _ => .error "ISCP message too short"

/-- `ParseHeader` from message.go: at least 12 bytes, magic `ISCP`,
big-endian header and payload sizes, and the data must be at least as long
as the declared header.  (The catch-all branch is unreachable: the length
guard admits only lists of at least 12 bytes.) -/
def parseHeader (data : List Nat) : Except String (Nat × Nat) :=
  if data.length < 12 then .error "eISCP header too short"
  else
    match data with
    | i :: s :: c :: p :: h0 :: h1 :: h2 :: h3 :: p0 :: p1 :: p2 :: p3 :: _ =>
      if i = 73 ∧ s = 83 ∧ c = 67 ∧ p = 80 then
        let hs := be32val h0 h1 h2 h3
        let ps := be32val p0 p1 p2 p3
        if data.length < hs then .error "eISCP header shorter than indicated"
        else .ok (hs, ps)
      else .error "missing start sequence in message header"
    | _ => .error "eISCP header too short"

/-- `ParseEISCP` from message.go: parse the header, check the total
length, slice out the payload and parse it as ISCP. -/
def parseEISCP (data : List Nat) : Except String (List Nat) :=
  match parseHeader data with
  | .error e => .error e
  | .ok (hs, ps) =>
    if data.length < hs + ps then .error "eISCP message too short"
    else parseISCP ((data.drop hs).take ps)

/-! ### Device facade state machine (device.go) -/

/-- The fields of `Device` that govern `Start`/`Stop`/`SendISCP`:
`isRunning` and the connection (`conn != nil`), plus the `AutoConnect`
configuration flag and whether the send channel has been closed. -/
structure DeviceM where
  isRunning : Bool
  connected : Bool
  autoConnect : Bool
  sendClosed : Bool
deriving DecidableEq, Repr

/-- A fresh device (`NewDevice`): not running, not connected. -/
def newDeviceM (autoConnect : Bool) : DeviceM :=
  ⟨false, false, autoConnect, false⟩

/-- `Device.Start`, with the outcome of the TCP dial as a parameter:
errors when already running, otherwise connects and sets `isRunning`. -/
def startM (dialOk : Bool) (d : DeviceM) : DeviceM × Option String :=
  if d.isRunning then (d, some "already started")
  else if dialOk then ({ d with connected := true, isRunning := true }, none)
  else (d, some "dial error")

/-- `Device.Stop`: no-op when not running; otherwise disconnects and
closes the send/recv channels.  Note that the source never resets
`isRunning`. -/
def stopM (d : DeviceM) : DeviceM :=
  if d.isRunning then { d with connected := false, sendClosed := true } else d

/-- Result of a `SendISCP` call. -/
inductive SendOutcome
| enqueued
| errNotStarted
| errNotConnected
| errDial
| panics
deriving DecidableEq, Repr

/-- `Device.SendISCP`, with the outcome of a possible auto-connect dial as
a parameter: rejects when not running, then `connectIfRequired`
(reconnects when `AutoConnect` is set), then enqueues on the send channel
— which panics if the channel was closed by `Stop`. -/
def sendISCPM (dialOk : Bool) (d : DeviceM) : SendOutcome :=
  if ¬d.isRunning then .errNotStarted
  else if d.connected then
    (if d.sendClosed then .panics else .enqueued)
  else if d.autoConnect then
    (if dialOk then (if d.sendClosed then .panics else .enqueued) else .errDial)
  else .errNotConnected

/-! ### Session client `Send` (client.go) -/

/-- `ConnectionState` from client.go. -/
inductive ConnState
| disconnected
| connecting
| connected
| disconnecting
deriving DecidableEq, Repr

/-- What the caller of `Send` observes on the reply channel while it
waits: either the engine's reply arrives before the timeout (`replyFirst`,
carrying `nil` or an error string), or the timeout fires first. -/
inductive ReplyEv
| replyFirst (e : Option String)
| timeoutFirst
deriving DecidableEq, Repr

/-- `client.Send(cmd, timeout)`: immediately `ErrNotConnected` when the
state is `Disconnected` or `Disconnecting`; otherwise the task is
enqueued; `nil` when `timeout ≤ 0`; otherwise the race between the reply
channel and the timeout.  Returns `none` for a `nil` error. -/
def clientSend (st : ConnState) (timeout : Int) (ev : ReplyEv) : Option String :=
  if st = .disconnected ∨ st = .disconnecting then some "not connected"
  else if timeout ≤ 0 then none
  else
    match ev with
    | .replyFirst e => e
    | .timeoutFirst => some "timeout"

/-- `client.doSend`: executed by the engine when it dequeues the task,
independently of whether the caller is still waiting.  Returns whether the
message was written to the socket and what is sent on the reply channel
(`none` = `nil`). -/
def clientDoSend (st : ConnState) (writeErr : Option String) : Bool × Option String :=
  if st ≠ .connected then (false, some "not connected")
  else (true, writeErr)

/-! ## Theorems -/

/-- A byte below 127 and at least 32 is not CR, LF or EOF, so the
end-of-message stripping of `ParseISCP` leaves it alone. -/
theorem stripEOFByte_printable (b : Nat) (l : List Nat) (h : 32 ≤ b) :
    stripEOFByte (b :: l) = b :: l := by
  simp [stripEOFByte, show b ≠ 26 by omega]

/-- `stripTerm` does not touch a reversed body ending in a printable byte. -/
theorem stripTerm_printable (b : Nat) (l : List Nat) (h : 32 ≤ b) :
    stripTerm (b :: l) = b :: l := by
  simp [stripTerm, show b ≠ 13 by omega, show b ≠ 10 by omega]

/-- `ParseISCP` on a payload `"!1" ++ body` of at least 5 bytes reduces to
terminator/EOF stripping of the body. -/
theorem parseISCP_cons (body : List Nat) (h5 : ¬(33 :: 49 :: body).length < 5) :
    parseISCP (33 :: 49 :: body) = .ok (stripEOFByte (stripTerm body.reverse)).reverse := by
  rw [parseISCP, if_neg h5]
  simp

/-- `ParseISCP` on `"!1" ++ C ++ t` for any of the four terminator
variants, and with an optional EOF byte `0x1A` between the command and the
terminator, recovers the command `C` (for printable non-empty `C` long
enough for the 5-byte minimum). -/
theorem parseISCP_terminators (C t : List Nat) (hC : ∀ b ∈ C, 32 ≤ b ∧ b ≤ 126)
    (hne : C ≠ []) (hmin : 3 ≤ C.length + t.length)
    (ht : t = [13, 10] ∨ t = [13] ∨ t = [10] ∨ t = []) :
    parseISCP ([33, 49] ++ C ++ t) = .ok C ∧
    parseISCP ([33, 49] ++ C ++ 26 :: t) = .ok C := by
  cases hcr : C.reverse with
  | nil => exact absurd (List.reverse_eq_nil_iff.mp hcr) hne
  | cons b l =>
    have hbC : b ∈ C := by
      rw [← List.mem_reverse, hcr]; exact List.mem_cons_self _ _
    have hb : 32 ≤ b := (hC b hbC).1
    have hCbl : C = (b :: l).reverse := by rw [← hcr, List.reverse_reverse]
    constructor
    · have heq : [33, 49] ++ C ++ t = 33 :: 49 :: (C ++ t) := by simp
      rw [heq, parseISCP_cons _ (by
        simp only [List.length_cons, List.length_append]
        omega)]
      rw [List.reverse_append, hcr]
      rcases ht with rfl | rfl | rfl | rfl <;>
        simp [stripTerm, stripEOFByte, show b ≠ 13 by omega, show b ≠ 10 by omega,
          show b ≠ 26 by omega, hCbl]
    · have heq : [33, 49] ++ C ++ 26 :: t = 33 :: 49 :: (C ++ 26 :: t) := by simp
      rw [heq, parseISCP_cons _ (by
        simp only [List.length_cons, List.length_append]
        omega)]
      have hrev : (C ++ 26 :: t).reverse = t.reverse ++ 26 :: (b :: l) := by
        rw [show (26 :: t : List Nat) = [26] ++ t by simp, ← List.append_assoc,
          List.reverse_append, List.reverse_append, hcr]
        simp
      rw [hrev]
      rcases ht with rfl | rfl | rfl | rfl <;>
        simp [stripTerm, stripEOFByte, show b ≠ 13 by omega, show b ≠ 10 by omega,
          show b ≠ 26 by omega, hCbl]

/-- Big-endian 32-bit encode/decode round trip. -/
theorem be32val_be32 (n : Nat) :
    be32val (n / 2 ^ 24 % 256) (n / 2 ^ 16 % 256) (n / 2 ^ 8 % 256) (n % 256) = n % 2 ^ 32 := by
  unfold be32val
  omega

/-- The frame produced by `EISCPMessage.Raw`, with its header written out
byte by byte. -/
theorem rawEISCP_bytes (c : List Nat) (hlen : c.length + 4 < 2 ^ 32) :
    rawEISCP c =
      [73, 83, 67, 80, 0, 0, 0, 16,
       (c.length + 4) / 2 ^ 24 % 256, (c.length + 4) / 2 ^ 16 % 256,
       (c.length + 4) / 2 ^ 8 % 256, (c.length + 4) % 256,
       1, 0, 0, 0] ++ ([33, 49] ++ c ++ [13, 10]) := by
  have hmod : ([33, 49] ++ c ++ [13, 10]).length % 2 ^ 32 = c.length + 4 := by
    have hplen : ([33, 49] ++ c ++ [13, 10]).length = c.length + 4 := by
      simp [List.length_append]
    rw [hplen]; exact Nat.mod_eq_of_lt hlen
  simp only [rawEISCP, hmod, be32]
  norm_num

/-- Unfolding `ParseHeader` on an explicit 16-byte header followed by a
payload. -/
theorem parseHeader_cons (i s c p h0 h1 h2 h3 p0 p1 p2 p3 : Nat) (rest : List Nat) :
    parseHeader (i :: s :: c :: p :: h0 :: h1 :: h2 :: h3 ::
        p0 :: p1 :: p2 :: p3 :: rest) =
      if i = 73 ∧ s = 83 ∧ c = 67 ∧ p = 80 then
        if (i :: s :: c :: p :: h0 :: h1 :: h2 :: h3 ::
            p0 :: p1 :: p2 :: p3 :: rest).length < be32val h0 h1 h2 h3 then
          .error "eISCP header shorter than indicated"
        else .ok (be32val h0 h1 h2 h3, be32val p0 p1 p2 p3)
      else .error "missing start sequence in message header" := by
  rw [parseHeader, if_neg (by simp only [List.length_cons]; omega)]

/-- `ParseHeader` on the frame produced by `EISCPMessage.Raw` returns
header size 16 and the payload size. -/
theorem parseHeader_raw (c : List Nat) (hlen : c.length + 4 < 2 ^ 32) :
    parseHeader (rawEISCP c) = .ok (16, c.length + 4) := by
  have hps :
      be32val ((c.length + 4) / 2 ^ 24 % 256) ((c.length + 4) / 2 ^ 16 % 256)
        ((c.length + 4) / 2 ^ 8 % 256) ((c.length + 4) % 256) = c.length + 4 := by
    rw [be32val_be32]; exact Nat.mod_eq_of_lt hlen
  rw [rawEISCP_bytes c hlen]
  rw [show ([73, 83, 67, 80, 0, 0, 0, 16,
      (c.length + 4) / 2 ^ 24 % 256, (c.length + 4) / 2 ^ 16 % 256,
      (c.length + 4) / 2 ^ 8 % 256, (c.length + 4) % 256,
      1, 0, 0, 0] ++ ([33, 49] ++ c ++ [13, 10])) =
      73 :: 83 :: 67 :: 80 :: 0 :: 0 :: 0 :: 16 ::
      ((c.length + 4) / 2 ^ 24 % 256) :: ((c.length + 4) / 2 ^ 16 % 256) ::
      ((c.length + 4) / 2 ^ 8 % 256) :: ((c.length + 4) % 256) ::
      (1 :: 0 :: 0 :: 0 :: ([33, 49] ++ c ++ [13, 10])) from rfl]
  rw [parseHeader_cons]
  rw [if_pos ⟨rfl, rfl, rfl, rfl⟩, hps, show be32val 0 0 0 16 = 16 from rfl]
  rw [if_neg (by
    simp only [List.length_cons, List.length_append, List.length_nil]
    omega)]

/-- Unfolding `ParseEISCP` once the header has been parsed. -/
theorem parseEISCP_eq (data : List Nat) (hs ps : Nat)
    (h : parseHeader data = .ok (hs, ps)) :
    parseEISCP data =
      if data.length < hs + ps then .error "eISCP message too short"
      else parseISCP ((data.drop hs).take ps) := by
  rw [parseEISCP, h]

/-- Decoding the frame produced by `EISCPMessage.Raw` reaches `ParseISCP`
on exactly the payload `"!1" ++ c ++ "\r\n"`. -/
theorem parseEISCP_raw (c : List Nat) (hlen : c.length + 4 < 2 ^ 32) :
    parseEISCP (rawEISCP c) = parseISCP ([33, 49] ++ c ++ [13, 10]) := by
  have hplen : ([33, 49] ++ c ++ [13, 10]).length = c.length + 4 := by
    simp [List.length_append]
  rw [parseEISCP_eq _ _ _ (parseHeader_raw c hlen)]
  rw [rawEISCP_bytes c hlen]
  rw [if_neg (by
    simp only [List.length_append, List.length_cons, List.length_nil]
    omega)]
  rw [List.drop_left' (by simp), ← hplen, List.take_length]

/-- C5: for every non-empty printable command `c` (of total frame size
below the `uint32` limit), decoding the frame produced by
`EISCPMessage.Raw` - whose payload is `"!1" + c + "\r\n"` - yields `c`
back. -/
theorem C5_encode_decode (c : List Nat) (hne : c ≠ [])
    (hc : ∀ b ∈ c, 32 ≤ b ∧ b ≤ 126) (hlen : c.length + 4 < 2 ^ 32) :
    parseEISCP (rawEISCP c) = .ok c := by
  rw [parseEISCP_raw c hlen]
  have h1 : 1 ≤ c.length := by
    cases c with
    | nil => exact absurd rfl hne
    | cons x xs => simp
  have hmin : 3 ≤ c.length + ([13, 10] : List Nat).length := by
    simp only [List.length_cons, List.length_nil]; omega
  exact (parseISCP_terminators c [13, 10] hc hne hmin (Or.inl rfl)).1

/-- C5 witness: the round trip at the concrete command `"XXX"`. -/
theorem C5_encode_decode_witness :
    stringBytes "XXX" ≠ [] ∧
    parseEISCP (rawEISCP (stringBytes "XXX")) = .ok (stringBytes "XXX") :=
  ⟨by decide,
   C5_encode_decode (stringBytes "XXX") (by decide) (by decide) (by decide)⟩

/-- C6 counterexample: a `0x1A` byte *after* a terminator is not
tolerated: `ParseISCP` of `"!1XXX\n\x1A"` strips only the `0x1A` (the
terminator branch runs first and sees `0x1A`, not the `\n`), so the
command comes back as `"XXX\n"`, not `"XXX"`. -/
theorem C6_eof_after_terminator_counterexample :
    parseISCP (stringBytes "!1XXX" ++ [10, 26]) = .ok (stringBytes "XXX" ++ [10]) ∧
    stringBytes "XXX" ++ [10] ≠ stringBytes "XXX" := by
  exact ⟨by decide, by decide⟩

/-- C6 (amended): inbound payload decoding accepts all four terminator
variants, and tolerates a single `0x1A` *before* the terminator (or as
the final byte when the terminator is absent); a `0x1A` after a
non-empty terminator is not stripped. -/
theorem C6_terminator_robust (C t : List Nat) (hC : ∀ b ∈ C, 32 ≤ b ∧ b ≤ 126)
    (hlen : 3 ≤ C.length)
    (ht : t = [13, 10] ∨ t = [13] ∨ t = [10] ∨ t = []) :
    parseISCP ([33, 49] ++ C ++ t) = .ok C ∧
    parseISCP ([33, 49] ++ C ++ 26 :: t) = .ok C := by
  have hne : C ≠ [] := by
    intro h; rw [h] at hlen; simp at hlen
  exact parseISCP_terminators C t hC hne (by omega) ht

/-- C6 witness: the LF variant at the concrete command `"XXX"`, with and
without the preceding EOF byte. -/
theorem C6_terminator_robust_witness :
    parseISCP ([33, 49] ++ stringBytes "XXX" ++ [10]) = .ok (stringBytes "XXX") ∧
    parseISCP ([33, 49] ++ stringBytes "XXX" ++ 26 :: [10]) = .ok (stringBytes "XXX") :=
  C6_terminator_robust (stringBytes "XXX") [10] (by decide) (by decide)
    (Or.inr (Or.inr (Or.inl rfl)))

/-- C1: over `BasicCommands`, `CreateCommand("power", "on")` returns
`PWR01`, and `EISCPMessage.Raw` encodes it as exactly the 25 bytes
`49 53 43 50 00 00 00 10 00 00 00 09 01 00 00 00 21 31 50 57 52 30 31 0D 0A`. -/
theorem C1_power_on_encode :
    createCommand basicCommands "power" (.vString "on") = .ok "PWR01" ∧
    rawEISCP (stringBytes "PWR01") =
      [0x49, 0x53, 0x43, 0x50, 0x00, 0x00, 0x00, 0x10, 0x00, 0x00, 0x00, 0x09,
       0x01, 0x00, 0x00, 0x00, 0x21, 0x31, 0x50, 0x57, 0x52, 0x30, 0x31, 0x0D, 0x0A] := by
  exact ⟨by decide, by decide⟩

/-- C8 counterexample: a `Send` issued while the client is `Connecting`
(a state that is not `Connected`) with `timeout ≤ 0` returns `nil`, not
`ErrNotConnected` — the guard in `client.Send` only checks for
`Disconnected` and `Disconnecting`. -/
theorem C8_connecting_counterexample :
    clientSend .connecting 0 (.replyFirst none) = none ∧
    (none : Option String) ≠ some "not connected" := by
  exact ⟨rfl, by decide⟩

/-- C8 (amended): `Send` returns `ErrNotConnected` immediately exactly in
the `Disconnected`/`Disconnecting` states; in `Connecting` or `Connected`
it enqueues and returns `nil` when `timeout ≤ 0`; with a positive timeout
the caller observes the engine's reply (`nil`, a write error, or a late
`ErrNotConnected`) or `ErrTimeout`; and the engine's `doSend` writes to
the socket whenever it runs in `Connected`, regardless of whether the
caller already timed out. -/
theorem C8_send_behavior :
    (∀ (timeout : Int) (ev : ReplyEv),
      clientSend .disconnected timeout ev = some "not connected" ∧
      clientSend .disconnecting timeout ev = some "not connected") ∧
    (∀ (st : ConnState) (timeout : Int) (ev : ReplyEv),
      (st = .connecting ∨ st = .connected) → timeout ≤ 0 →
      clientSend st timeout ev = none) ∧
    (∀ (st : ConnState) (timeout : Int) (e : Option String),
      (st = .connecting ∨ st = .connected) → 0 < timeout →
      clientSend st timeout (.replyFirst e) = e ∧
      clientSend st timeout .timeoutFirst = some "timeout") ∧
    (∀ writeErr, clientDoSend .connected writeErr = (true, writeErr)) ∧
    (∀ (st : ConnState) (writeErr : Option String), st ≠ .connected →
      clientDoSend st writeErr = (false, some "not connected")) := by
  refine ⟨fun timeout ev => ⟨rfl, rfl⟩, ?_, ?_, fun writeErr => rfl, ?_⟩
  · rintro st timeout ev (rfl | rfl) hle <;>
      simp [clientSend, show timeout ≤ 0 from hle]
  · rintro st timeout e (rfl | rfl) hpos <;>
      simp [clientSend, show ¬timeout ≤ 0 by omega]
  · intro st writeErr hne
    simp [clientDoSend, hne]

/-- C8 witness: concrete instances of `C8_send_behavior`. -/
theorem C8_send_behavior_witness :
    clientSend .connecting 0 (.replyFirst (some "io error")) = none ∧
    clientSend .connected 5 .timeoutFirst = some "timeout" ∧
    clientDoSend .connecting none = (false, some "not connected") :=
  ⟨C8_send_behavior.2.1 .connecting 0 _ (Or.inl rfl) (by decide),
   (C8_send_behavior.2.2.1 .connected 5 none (Or.inr rfl) (by decide)).2,
   C8_send_behavior.2.2.2.2 .connecting none (by decide)⟩

/-- C9: `SendISCP` before `Start` returns the not-started error, but after
`Stop` it does not: `Stop` never resets `isRunning`, so a send after stop
passes the `isRunning` guard and instead fails `connectIfRequired` with
the not-connected error (or, with `AutoConnect` and a successful dial,
panics by sending on the closed channel). -/
theorem C9_send_after_stop :
    sendISCPM true (newDeviceM false) = .errNotStarted ∧
    sendISCPM false (newDeviceM false) = .errNotStarted ∧
    (startM true (newDeviceM false)).2 = none ∧
    sendISCPM false (stopM (startM true (newDeviceM false)).1) = .errNotConnected ∧
    sendISCPM true (stopM (startM true (newDeviceM true)).1) = .panics ∧
    SendOutcome.errNotConnected ≠ SendOutcome.errNotStarted := by
  refine ⟨rfl, rfl, rfl, rfl, rfl, by decide⟩

/-- C7 counterexample: `formatOnOff(int8(1))` is rejected, although the
claim says every numeric type equal to 1 maps to `"01"`.  In the Go type
switch the case lists many types, so `val` stays `interface{}` and
`val == 1` compares against `int(1)` only. -/
theorem C7_int8_counterexample :
    formatOnOff (.vInt .int8 1) = .error "invalid parameter" ∧
    (Except.error "invalid parameter" : Except String String) ≠ .ok "01" := by
  exact ⟨by decide, by decide⟩

/-- C7 (amended): `formatOnOff` maps `true/false` to `"01"/"00"`; a
numeric input maps to `"01"`/`"00"` only when its dynamic type is exactly
`int` (value 1/0) or `float64` (value 1.0/0.0) — every other numeric type
is rejected regardless of value; strings are matched case-insensitively
against `on`/`off`, then tried with `strconv.ParseBool` (which accepts
exactly `1,t,T,TRUE,True,true,0,f,F,FALSE,False,false`, not arbitrary
case-insensitive `true`/`false`), then with `strconv.Atoi`, recursing into
the corresponding branch; everything else is rejected. -/
theorem C7_onoff_format :
    (∀ b, formatOnOff (.vBool b) = .ok (if b then "01" else "00")) ∧
    (∀ (t : IntType) (n : Int),
      formatOnOff (.vInt t n) =
        if t = .int ∧ n = 1 then .ok "01"
        else if t = .int ∧ n = 0 then .ok "00"
        else .error "invalid parameter") ∧
    (∀ (t : FloatType) (q : Frac),
      formatOnOff (.vFloat t q) =
        if t = .float64 ∧ q.num = q.den then .ok "01"
        else if t = .float64 ∧ q.num = 0 then .ok "00"
        else .error "invalid parameter") ∧
    (∀ s, goToLower s = "on" → formatOnOff (.vString s) = .ok "01") ∧
    (∀ s, goToLower s = "off" → formatOnOff (.vString s) = .ok "00") ∧
    (∀ s b, goToLower s ≠ "on" → goToLower s ≠ "off" → goParseBool s = some b →
      formatOnOff (.vString s) = .ok (if b then "01" else "00")) ∧
    (∀ s i, goToLower s ≠ "on" → goToLower s ≠ "off" → goParseBool s = none →
      goAtoi s = some i →
      formatOnOff (.vString s) =
        if i = 1 then .ok "01" else if i = 0 then .ok "00"
        else .error "invalid parameter") ∧
    (∀ s, goToLower s ≠ "on" → goToLower s ≠ "off" → goParseBool s = none →
      goAtoi s = none → formatOnOff (.vString s) = .error "invalid parameter") ∧
    formatOnOff .vOther = .error "invalid parameter" := by
  refine ⟨?_, ?_, ?_, ?_, ?_, ?_, ?_, ?_, rfl⟩
  · intro b; cases b <;> rfl
  · intro t n
    by_cases ht : t = IntType.int
    · subst ht
      by_cases h1 : n = 1
      · subst h1; decide
      · by_cases h0 : n = 0
        · subst h0; decide
        · simp [formatOnOff, formatOnOffScalar, GoValue.eqv, h1, h0]
    · simp [formatOnOff, formatOnOffScalar, GoValue.eqv, ht]
  · intro t q
    by_cases ht : t = FloatType.float64
    · subst ht
      by_cases h1 : q.num = q.den
      · simp [formatOnOff, formatOnOffScalar, GoValue.eqv, Frac.ofInt, h1]
      · by_cases h0 : q.num = 0
        · simp [formatOnOff, formatOnOffScalar, GoValue.eqv, Frac.ofInt, h1, h0]
        · simp [formatOnOff, formatOnOffScalar, GoValue.eqv, Frac.ofInt, h1, h0]
    · simp [formatOnOff, formatOnOffScalar, GoValue.eqv, ht]
  · intro s h; simp [formatOnOff, h]
  · intro s h
    by_cases hon : goToLower s = "on"
    · rw [hon] at h; exact absurd h (by decide)
    · simp [formatOnOff, hon, h]
  · intro s b hon hoff hpb
    cases b <;> simp [formatOnOff, hon, hoff, hpb, formatOnOffScalar]
  · intro s i hon hoff hpb hatoi
    by_cases h1 : i = 1
    · subst h1; simp [formatOnOff, hon, hoff, hpb, hatoi, formatOnOffScalar, GoValue.eqv]
    · by_cases h0 : i = 0
      · subst h0; simp [formatOnOff, hon, hoff, hpb, hatoi, formatOnOffScalar, GoValue.eqv]
      · simp [formatOnOff, hon, hoff, hpb, hatoi, formatOnOffScalar, GoValue.eqv, h1, h0]
  · intro s hon hoff hpb hatoi
    simp [formatOnOff, hon, hoff, hpb, hatoi]

/-- C7 witness: concrete instances of `C7_onoff_format`. -/
theorem C7_onoff_format_witness :
    formatOnOff (.vBool true) = .ok "01" ∧
    formatOnOff (.vString "ON") = .ok "01" ∧
    formatOnOff (.vString "TRUE") = .ok "01" ∧
    formatOnOff (.vString "01") = .ok "01" ∧
    formatOnOff (.vString "foo") = .error "invalid parameter" :=
  ⟨by simpa using C7_onoff_format.1 true,
   C7_onoff_format.2.2.2.1 "ON" (by decide),
   by simpa using C7_onoff_format.2.2.2.2.2.1 "TRUE" true (by decide) (by decide) (by decide),
   (by
     simpa using C7_onoff_format.2.2.2.2.2.2.1 "01" 1 (by decide) (by decide)
       (by decide) (by decide)),
   C7_onoff_format.2.2.2.2.2.2.2.1 "foo" (by decide) (by decide) (by decide) (by decide)⟩

/-- All entries produced by `natHexDigitsAux` are hex digits. -/
theorem natHexDigitsAux_lt (fuel : Nat) :
    ∀ (n : Nat), n < fuel → ∀ d ∈ natHexDigitsAux fuel n, d < 16 := by
  induction fuel with
  | zero => omega
  | succ f ih =>
    intro n hn d hd
    rw [natHexDigitsAux] at hd
    by_cases h16 : n < 16
    · rw [if_pos h16] at hd
      simp at hd; omega
    · rw [if_neg h16] at hd
      rcases List.mem_append.mp hd with h1 | h2
      · have hdiv : n / 16 < f := by
          have := Nat.div_lt_self (show 0 < n by omega) (show 1 < 16 by omega)
          omega
        exact ih (n / 16) hdiv d h1
      · simp at h2; omega

/-- `natHexDigitsAux` never returns an empty digit list (given fuel). -/
theorem natHexDigitsAux_ne_nil (fuel n : Nat) (h : n < fuel) :
    natHexDigitsAux fuel n ≠ [] := by
  cases fuel with
  | zero => omega
  | succ f =>
    rw [natHexDigitsAux]
    by_cases h16 : n < 16
    · simp [h16]
    · simp [h16]

/-- Every hex digit renders as an uppercase hexadecimal character. -/
theorem hexDigitChar_upperHex : ∀ d, d < 16 → isUpperHexDigit (hexDigitChar d) = true := by
  decide

/-- Go's `%X` of a nonnegative integer is a non-empty string of uppercase
hex digits. -/
theorem goFmtX_nonneg_shape (n : Int) (h : 0 ≤ n) :
    (goFmtX n).data.all isUpperHexDigit = true ∧ 1 ≤ (goFmtX n).length := by
  rw [goFmtX, if_neg (by omega)]
  constructor
  · rw [List.all_eq_true]
    intro c hc
    rcases List.mem_map.mp hc with ⟨d, hd, rfl⟩
    exact hexDigitChar_upperHex d (natHexDigitsAux_lt _ _ (Nat.lt_succ_self _) d hd)
  · have hne := natHexDigitsAux_ne_nil (n.natAbs + 1) n.natAbs (Nat.lt_succ_self _)
    have : (natHexDigits n.natAbs).length ≠ 0 := by
      rw [natHexDigits] at *
      simpa [List.length_eq_zero] using hne
    simpa [String.length] using Nat.one_le_iff_ne_zero.mpr this

/-- Even-length zero padding of a non-empty uppercase-hex string yields
the shape claimed for `formatIntRange` outputs. -/
theorem padEven_evenHex (s : String) (hall : s.data.all isUpperHexDigit = true)
    (hlen : 1 ≤ s.length) : evenHexDigitsMin2 (padEven s) = true := by
  rw [padEven]
  by_cases hp : s.length % 2 ≠ 0
  · rw [if_pos hp]
    have hdata : ("0" ++ s).data = '0' :: s.data := rfl
    have hlen2 : ("0" ++ s).length = s.length + 1 := by
      show ("0" ++ s).data.length = s.data.length + 1
      rw [hdata, List.length_cons]
    simp only [evenHexDigitsMin2, hdata, hlen2, List.all_cons, hall, Bool.and_true,
      Bool.true_and]
    have h1 : (s.length + 1) % 2 = 0 := by omega
    have h2 : 2 ≤ s.length + 1 := by omega
    simp [h1, h2, show isUpperHexDigit '0' = true by decide]
  · rw [if_neg hp]
    simp only [evenHexDigitsMin2, hall, Bool.true_and]
    have h1 : s.length % 2 = 0 := by omega
    have h2 : 2 ≤ s.length := by omega
    simp [h1, h2]

/-- C2 counterexample: `formatIntRange` on a negative in-range value emits
Go's `%X` of a negative `int`, a minus sign followed by the hex magnitude
— with bounds `[-10, 10]`, scale 1 and value `-5` the output is `"-5"`,
which is not an even count (min two) of hex digits. -/
theorem C2_negative_hex_counterexample :
    formatIntRange (-10) 10 1 (.vInt .int (-5)) = .ok "-5" ∧
    evenHexDigitsMin2 "-5" = false := by
  exact ⟨by decide, by decide⟩

/-- C2 (amended): for an `IntRange` definition and a numeric input of
value `q`, formatting fails unless `lower ≤ q ≤ upper` (checked on the
pre-scale value) and `q * scale` is integral (scale 0 treated as 1), and
on success emits `q * scale` in Go's `%X` format padded to an even
*string* length; for nonnegative scaled values that is an even number
(at least two) of uppercase hex digits as claimed, while negative scaled
values carry a minus sign counted by the padding. -/
theorem C2_intRange_format :
    (∀ (lower upper scale : Int) (v : GoValue) (q : Frac),
      intRangeNumeric v = .ok q →
      ((q.lt (Frac.ofInt lower) || (Frac.ofInt upper).lt q) = true →
        formatIntRange lower upper scale v = .error "invalid parameter") ∧
      ((q.lt (Frac.ofInt lower) || (Frac.ofInt upper).lt q) = false →
        (q.mulInt (if scale = 0 then 1 else scale)).isInt = false →
        formatIntRange lower upper scale v = .error "invalid parameter") ∧
      ((q.lt (Frac.ofInt lower) || (Frac.ofInt upper).lt q) = false →
        (q.mulInt (if scale = 0 then 1 else scale)).isInt = true →
        formatIntRange lower upper scale v =
          .ok (padEven (goFmtX ((q.mulInt (if scale = 0 then 1 else scale)).toInt))))) ∧
    (∀ n : Int, 0 ≤ n → evenHexDigitsMin2 (padEven (goFmtX n)) = true) := by
  constructor
  · intro lower upper scale v q hq
    refine ⟨fun hb => ?_, fun hb hint => ?_, fun hb hint => ?_⟩
    · rw [formatIntRange, hq]; simp [hb]
    · rw [formatIntRange, hq]; simp [hb, hint]
    · rw [formatIntRange, hq]; simp [hb, hint]
  · intro n hn
    obtain ⟨hall, hlen⟩ := goFmtX_nonneg_shape n hn
    exact padEven_evenHex _ hall hlen

/-- C2 witness: scenario S2, `volume 23` with bounds `[0, 100]` and
scale 2 formats to `"2E"`, and the hex-shape fact at the scaled value. -/
theorem C2_intRange_format_witness :
    formatIntRange 0 100 2 (.vInt .int 23) = .ok (padEven (goFmtX 46)) ∧
    evenHexDigitsMin2 (padEven (goFmtX 46)) = true ∧
    padEven (goFmtX 46) = "2E" :=
  ⟨by
    simpa using ((C2_intRange_format.1 0 100 2 (.vInt .int 23) (Frac.ofInt 23)
      (by decide)).2.2 (by decide) (by decide)),
   C2_intRange_format.2 46 (by decide),
   by decide⟩

/-- `natDigitsAux` never returns an empty digit list (given fuel). -/
theorem natDigitsAux_ne_nil (fuel n : Nat) (h : n < fuel) :
    natDigitsAux fuel n ≠ [] := by
  cases fuel with
  | zero => omega
  | succ f =>
    rw [natDigitsAux]
    by_cases h10 : n < 10
    · simp [h10]
    · simp [h10]

/-- A number below `10^k` has at most `k` decimal digits. -/
theorem natDigitsAux_length_le (fuel : Nat) :
    ∀ n k, n < fuel → 1 ≤ k → n < 10 ^ k → (natDigitsAux fuel n).length ≤ k := by
  induction fuel with
  | zero => omega
  | succ f ih =>
    intro n k hn hk hpow
    rw [natDigitsAux]
    by_cases h10 : n < 10
    · simp [h10]; omega
    · rw [if_neg h10]
      have hk2 : 2 ≤ k := by
        by_contra hlt
        have : k = 1 := by omega
        rw [this] at hpow
        simp at hpow
        omega
      have hdivf : n / 10 < f := by
        have := Nat.div_lt_self (show 0 < n by omega) (show 1 < 10 by omega)
        omega
      have hdivp : n / 10 < 10 ^ (k - 1) := by
        apply Nat.div_lt_of_lt_mul
        calc n < 10 ^ k := hpow
        _ = 10 * 10 ^ (k - 1) := by
          rw [← pow_succ']
          congr 1
          omega
      have := ih (n / 10) (k - 1) hdivf (by omega) hdivp
      simp only [List.length_append, List.length_cons, List.length_nil]
      omega

/-- For an integral fraction the minimal terminating exponent is 0. -/
theorem minTermExp_int (q : Frac) (hint : q.isInt = true) : minTermExp q = some 0 := by
  have h0 : q.num % q.den = 0 := by
    simpa [Frac.isInt, decide_eq_true_eq] using hint
  rw [minTermExp, show (65 : Nat) = 64 + 1 from rfl, List.range_succ_eq_map]
  exact List.find?_cons_of_pos _ (by simp [h0])

/-- Unfolding `goFormatFloat` at a known minimal terminating exponent. -/
theorem goFormatFloat_eq_core (a : Frac) (e : Nat) (h0 : a.num ≠ 0)
    (he : minTermExp a = some e) :
    goFormatFloat a = (if a.num < 0 then "-" else "") ++ goFormatFloatCore a e := by
  rw [goFormatFloat, if_neg h0, he]

/-- Unfolding `parseIntRange` when the hex parse succeeds. -/
theorem parseIntRange_eq_some (lower upper scale : Int) (raw : String) (n : Int)
    (h : goParseIntHex raw = some n) :
    parseIntRange lower upper scale raw =
      (if ((Frac.ofInt n).divInt (if scale = 0 then 1 else scale)).lt (Frac.ofInt lower) ||
          (Frac.ofInt upper).lt ((Frac.ofInt n).divInt (if scale = 0 then 1 else scale)) then
        .error "invalid parameter"
      else .ok (goFormatFloat ((Frac.ofInt n).divInt (if scale = 0 then 1 else scale)))) := by
  rw [parseIntRange, h]

/-- Unfolding `parseIntRange` when the hex parse fails. -/
theorem parseIntRange_eq_none (lower upper scale : Int) (raw : String)
    (h : goParseIntHex raw = none) :
    parseIntRange lower upper scale raw = .error "parse error" := by
  rw [parseIntRange, h]

/-- Go's `%v` float formatting prints an integral value (of magnitude
below `10^21`) as its plain decimal integer representation — no trailing
`".0"`, no scientific notation. -/
theorem goFormatFloat_int (q : Frac) (hden : 0 < q.den) (hint : q.isInt = true)
    (hlt : q.num.natAbs < 10 ^ 21) :
    goFormatFloat q = intDecimal q.toInt := by
  by_cases h0 : q.num = 0
  · have ht : q.toInt = 0 := by rw [Frac.toInt, h0]; simp
    rw [goFormatFloat, if_pos h0, ht]
    decide
  · have hdvd : q.den ∣ q.num := Int.dvd_of_emod_eq_zero (by
      simpa [Frac.isInt, decide_eq_true_eq] using hint)
    obtain ⟨k, hk⟩ := hdvd
    have hdne : q.den ≠ 0 := by omega
    have htoInt : q.toInt = k := by
      rw [Frac.toInt, hk, Int.mul_ediv_cancel_left k hdne]
    have hkne : k ≠ 0 := by
      intro hk0
      rw [hk0, mul_zero] at hk
      exact h0 hk
    have habs : ((q.num.natAbs : Int)) / q.den = (k.natAbs : Int) := by
      have h1 : ((q.num.natAbs : Int)) = q.den * (k.natAbs : Int) := by
        rw [← Int.abs_eq_natAbs, hk, abs_mul, ← Int.abs_eq_natAbs,
          abs_of_pos hden]
      rw [h1, Int.mul_ediv_cancel_left _ hdne]
    have hM : (((q.num.natAbs : Int) * 10 ^ 0) / q.den).toNat = k.natAbs := by
      rw [pow_zero, mul_one, habs, Int.toNat_natCast]
    have hsign : (q.num < 0) ↔ (k < 0) := by
      rw [hk, mul_neg_iff]
      constructor
      · rintro (⟨_, hneg⟩ | ⟨hdneg, _⟩)
        · exact hneg
        · omega
      · intro hkneg
        exact Or.inl ⟨hden, hkneg⟩
    have hnd1 : 1 ≤ (natDigits k.natAbs).length := by
      have := natDigitsAux_ne_nil (k.natAbs + 1) k.natAbs (Nat.lt_succ_self _)
      rw [natDigits]
      cases hl : natDigitsAux (k.natAbs + 1) k.natAbs with
      | nil => exact absurd hl this
      | cons d ds => simp
    have hnd21 : (natDigits k.natAbs).length ≤ 21 := by
      rw [natDigits]
      refine natDigitsAux_length_le _ _ 21 (Nat.lt_succ_self _) (by omega) ?_
      have : q.num.natAbs = q.den.natAbs * k.natAbs := by
        rw [← Int.natAbs_mul, ← hk]
      have hden1 : 1 ≤ q.den.natAbs := by omega
      calc k.natAbs ≤ q.den.natAbs * k.natAbs := Nat.le_mul_of_pos_left _ (by omega)
      _ = q.num.natAbs := this.symm
      _ < 10 ^ 21 := hlt
    rw [goFormatFloat_eq_core q 0 h0 (minTermExp_int q hint)]
    rw [goFormatFloatCore]
    simp only [hM]
    have hexp : -4 ≤ ((natDigits k.natAbs).length : Int) - 1 - ((0 : Nat) : Int) ∧
        ((natDigits k.natAbs).length : Int) - 1 - ((0 : Nat) : Int) < 21 := by
      constructor <;> push_cast <;> omega
    rw [if_pos hexp]
    have hfix : fixedRender k.natAbs 0 = natDecimal k.natAbs := by
      rw [fixedRender, if_pos rfl, natDecimal]
    rw [hfix, htoInt, intDecimal]
    by_cases hkneg : k < 0
    · rw [if_pos (hsign.mpr hkneg), if_pos hkneg]
    · rw [if_neg (fun h => hkneg (hsign.mp h)), if_neg hkneg]
      simp

/-- C3 counterexample: with bounds `[0, 1]` and scale 100000, the raw
token `"01"` parses to the quotient `1/100000`, which Go's `%v` prints in
scientific notation as `"1e-05"` — not a decimal representation. -/
theorem C3_scientific_counterexample :
    parseIntRange 0 1 100000 "01" = .ok "1e-05" ∧
    "1e-05" ≠ "0.00001" := by
  exact ⟨by decide, by decide⟩

/-- C3 (amended): `parseIntRange` parses the payload as a hexadecimal
integer (failing on non-hex tokens), divides by the scale (0 treated
as 1), fails unless `lower ≤ quotient ≤ upper`, and prints the quotient
with Go's `%v` float formatting: integral quotients (below `10^21`) come
out as the plain decimal integer with no `".0"`, but quotients below
`10^-4` come out in scientific notation; over `BasicCommands`,
`ReadCommand("MVL05")` returns `("volume", "2.5")`. -/
theorem C3_intRange_parse :
    (∀ (lower upper scale : Int) (raw : String), goParseIntHex raw = none →
      parseIntRange lower upper scale raw = .error "parse error") ∧
    (∀ (lower upper scale : Int) (raw : String) (n : Int), goParseIntHex raw = some n →
      (((Frac.ofInt n).divInt (if scale = 0 then 1 else scale)).lt (Frac.ofInt lower) ||
          (Frac.ofInt upper).lt ((Frac.ofInt n).divInt (if scale = 0 then 1 else scale))) =
            true →
        parseIntRange lower upper scale raw = .error "invalid parameter") ∧
    (∀ (lower upper scale : Int) (raw : String) (n : Int), goParseIntHex raw = some n →
      (((Frac.ofInt n).divInt (if scale = 0 then 1 else scale)).lt (Frac.ofInt lower) ||
          (Frac.ofInt upper).lt ((Frac.ofInt n).divInt (if scale = 0 then 1 else scale))) =
            false →
        parseIntRange lower upper scale raw =
          .ok (goFormatFloat ((Frac.ofInt n).divInt (if scale = 0 then 1 else scale)))) ∧
    (∀ q : Frac, 0 < q.den → q.isInt = true → q.num.natAbs < 10 ^ 21 →
      goFormatFloat q = intDecimal q.toInt) ∧
    readCommand basicCommands "MVL05" = .ok ("volume", "2.5") := by
  refine ⟨?_, ?_, ?_, goFormatFloat_int, by decide⟩
  · intro lower upper scale raw h
    exact parseIntRange_eq_none lower upper scale raw h
  · intro lower upper scale raw n h hb
    rw [parseIntRange_eq_some lower upper scale raw n h, if_pos (by simp [hb])]
  · intro lower upper scale raw n h hb
    rw [parseIntRange_eq_some lower upper scale raw n h, if_neg (by simp [hb])]

/-- C3 witness: concrete instances — scenario S3 (`"05"` over volume's
bounds and scale parses to `"2.5"`), the integral-rendering clause at
`5`, and a failing hex parse. -/
theorem C3_intRange_parse_witness :
    parseIntRange 0 100 2 "05" = .ok (goFormatFloat ((Frac.ofInt 5).divInt 2)) ∧
    goFormatFloat (Frac.ofInt 5) = intDecimal (Frac.ofInt 5).toInt ∧
    parseIntRange 0 100 2 "zz" = .error "parse error" ∧
    goFormatFloat ((Frac.ofInt 5).divInt 2) = "2.5" :=
  ⟨by
    simpa using C3_intRange_parse.2.2.1 0 100 2 "05" 5 (by decide) (by decide),
   C3_intRange_parse.2.2.2.1 (Frac.ofInt 5) (by decide) (by decide) (by decide),
   C3_intRange_parse.1 0 100 2 "zz" (by decide),
   by decide⟩

/-- Go map lookup is by key and independent of iteration order: over any
association list whose keys are distinct, `parseEnum` returns the value
of the (unique) matching entry. -/
theorem parseEnum_eq_of_mem (L : List (String × String)) (r v : String)
    (hnd : (L.map Prod.fst).Nodup) (hm : (r, v) ∈ L) :
    parseEnum L r = .ok v := by
  induction L with
  | nil => simp at hm
  | cons hd tl ih =>
    obtain ⟨k, w⟩ := hd
    rw [List.map_cons, List.nodup_cons] at hnd
    by_cases hk : k = r
    · subst hk
      have hvw : v = w := by
        rcases List.mem_cons.mp hm with heq | htl
        · have := Prod.mk.injEq .. ▸ heq
          simpa using heq
        · exact absurd (List.mem_map.mpr ⟨(k, v), htl, rfl⟩) hnd.1
      subst hvw
      rw [parseEnum, List.find?_cons_of_pos _ (by simp)]
    · have htl : (r, v) ∈ tl := by
        rcases List.mem_cons.mp hm with heq | htl
        · obtain ⟨h1, h2⟩ : r = k ∧ v = w := by simpa using heq
          exact absurd h1.symm hk
        · exact htl
      have hrec := ih hnd.2 htl
      rw [parseEnum] at hrec ⊢
      rw [List.find?_cons_of_neg _ (by simp [hk])]
      exact hrec

/-- Unfolding `enumWireRT` once the parse result is known. -/
theorem enumWireRT_eq_ok (L : List (String × String)) (r v : String)
    (h : parseEnum L r = .ok v) :
    enumWireRT L r = decide (formatEnum L (.vString v) = .ok r) := by
  rw [enumWireRT, h]

/-- Unfolding `parseIntRangeEnum` when the IntRange side succeeds. -/
theorem parseIntRangeEnum_ok (lower upper scale : Int) (lookup : List (String × String))
    (raw s : String) (h : parseIntRange lower upper scale raw = .ok s) :
    parseIntRangeEnum lower upper scale lookup raw = .ok s := by
  rw [parseIntRangeEnum, h]

/-- The volume entry dispatches `ParseParam` to the IntRangeEnum parser. -/
theorem volume_parseParam (r : String) :
    volumeCommand.parseParam r =
      parseIntRangeEnum 0 100 2 [("UP", "up"), ("DOWN", "down")] r := rfl

set_option maxRecDepth 40000 in
/-- Every scaled volume value `n ∈ [0, 200]` survives the wire round
trip: formatting the printed quotient returns the canonical even-padded
hex of `n`. -/
theorem volumeHexRT_all : ∀ m : Nat, m < 201 → volumeHexRT m = true := by decide

/-- C4 counterexample: both listen-mode aliases `"00"` and `"STEREO"`
parse to `"stereo"` (map lookup is key-based, independent of iteration
order), while formatting `"stereo"` scans the map and returns a single
key — `"00"` under the source order, `"STEREO"` under the opposite
order — so under either possible iteration order at least one of the two
aliases fails the wire round trip. -/
theorem C4_listen_mode_counterexample :
    parseEnum listenModeLookup "00" = .ok "stereo" ∧
    parseEnum listenModeLookup "STEREO" = .ok "stereo" ∧
    parseEnum listenModeLookupAlt "00" = .ok "stereo" ∧
    parseEnum listenModeLookupAlt "STEREO" = .ok "stereo" ∧
    formatEnum listenModeLookup (.vString "stereo") = .ok "00" ∧
    formatEnum listenModeLookupAlt (.vString "stereo") = .ok "STEREO" ∧
    enumWireRT listenModeLookup "STEREO" = false ∧
    enumWireRT listenModeLookupAlt "00" = false ∧
    ("00" : String) ≠ "STEREO" := by
  refine ⟨by decide, by decide, by decide, by decide, by decide, by decide,
    by decide, by decide, by decide⟩

/-- C4 (amended): `format(parse(r)) = r` holds for every valid raw token
of every `BasicCommands` definition whose lookup maps distinct raw keys
to distinct values (the enum-family tokens are checked exhaustively);
volume's IntRange side round-trips for *every* token the hex parser
accepts within bounds, modulo canonical normalization: the formatted
result is the even-padded uppercase hex of the token's value, which
equals the token exactly when the token is canonical.  For listen-mode,
whose lookup maps both `"00"` and `"STEREO"` to `"stereo"`, parsing
collapses the two aliases under every map-iteration order, and since
formatting returns one key, at most one alias can round-trip — so the
round trip fails for at least one of the two, whatever order Go's map
iteration takes. -/
theorem C4_wire_roundtrip :
    wireRTall powerCommand ["00", "01"] = true ∧
    wireRTall volumeCommand ["UP", "DOWN", "05", "0A", "64"] = true ∧
    wireRTall muteCommand ["00", "01", "TG"] = true ∧
    wireRTall speakerACommand ["00", "01"] = true ∧
    wireRTall speakerBCommand ["00", "01"] = true ∧
    wireRTall dimmerCommand ["00", "01", "02", "03", "08"] = true ∧
    wireRTall displayCommand ["00", "01", "02", "03", "TG"] = true ∧
    wireRTall inputCommand ["00", "01", "02", "03", "20"] = true ∧
    wireRTall updateCommand ["00", "01"] = true ∧
    (∀ (r : String) (n : Int), goParseIntHex r = some n →
      (((Frac.ofInt n).divInt 2).lt (Frac.ofInt 0) ||
        (Frac.ofInt 100).lt ((Frac.ofInt n).divInt 2)) = false →
      volumeCommand.parseParam r = .ok (goFormatFloat ((Frac.ofInt n).divInt 2)) ∧
      volumeCommand.formatParam
          (.vString (goFormatFloat ((Frac.ofInt n).divInt 2))) =
        .ok (padEven (goFmtX n))) ∧
    (∀ L : List (String × String), L.Perm listenModeLookup →
      parseEnum L "00" = .ok "stereo" ∧
      parseEnum L "STEREO" = .ok "stereo" ∧
      ¬(enumWireRT L "00" = true ∧ enumWireRT L "STEREO" = true)) := by
  refine ⟨by decide, by decide, by decide, by decide, by decide, by decide,
    by decide, by decide, by decide, ?_, ?_⟩
  · intro r n hhex hb
    have h2 : (if (2 : Int) = 0 then 1 else (2 : Int)) = 2 := by norm_num
    have hdiv : (Frac.ofInt n).divInt 2 = ⟨n, 2⟩ := by
      simp [Frac.divInt, Frac.ofInt]
    have hbounds : 0 ≤ n ∧ n ≤ 200 := by
      have hb' := hb
      rw [hdiv] at hb'
      simp only [Frac.lt, Frac.ofInt, Bool.or_eq_false_iff,
        decide_eq_false_iff_not] at hb'
      omega
    constructor
    · rw [volume_parseParam]
      refine parseIntRangeEnum_ok 0 100 2 _ r _ ?_
      rw [parseIntRange_eq_some 0 100 2 r n hhex]
      simp only [h2]
      rw [if_neg (by simp [hb])]
    · have hall := volumeHexRT_all n.toNat (by omega)
      rw [volumeHexRT] at hall
      have h := of_decide_eq_true hall
      rwa [Int.toNat_of_nonneg hbounds.1] at h
  · intro L hperm
    have hndL : (L.map Prod.fst).Nodup :=
      (hperm.map Prod.fst).nodup_iff.mpr (by decide)
    have h00 : parseEnum L "00" = .ok "stereo" :=
      parseEnum_eq_of_mem L "00" "stereo" hndL (hperm.mem_iff.mpr (by decide))
    have hst : parseEnum L "STEREO" = .ok "stereo" :=
      parseEnum_eq_of_mem L "STEREO" "stereo" hndL (hperm.mem_iff.mpr (by decide))
    refine ⟨h00, hst, ?_⟩
    rintro ⟨h1, h2⟩
    rw [enumWireRT_eq_ok L "00" "stereo" h00] at h1
    rw [enumWireRT_eq_ok L "STEREO" "stereo" hst] at h2
    have e1 := of_decide_eq_true h1
    have e2 := of_decide_eq_true h2
    rw [e1] at e2
    exact absurd (Except.ok.inj e2) (by decide)

/-- C4 witness: the volume clause at the boundary token `"C8"`
(value 200), and the listen-mode clause at the reversed iteration
order. -/
theorem C4_wire_roundtrip_witness :
    goParseIntHex "C8" = some 200 ∧
    volumeCommand.parseParam "C8" = .ok (goFormatFloat ((Frac.ofInt 200).divInt 2)) ∧
    volumeCommand.formatParam
        (.vString (goFormatFloat ((Frac.ofInt 200).divInt 2))) =
      .ok (padEven (goFmtX 200)) ∧
    listenModeLookupAlt.Perm listenModeLookup ∧
    ¬(enumWireRT listenModeLookupAlt "00" = true ∧
      enumWireRT listenModeLookupAlt "STEREO" = true) :=
  ⟨by decide,
   (C4_wire_roundtrip.2.2.2.2.2.2.2.2.2.1 "C8" 200 (by decide) (by decide)).1,
   (C4_wire_roundtrip.2.2.2.2.2.2.2.2.2.1 "C8" 200 (by decide) (by decide)).2,
   by decide,
   (C4_wire_roundtrip.2.2.2.2.2.2.2.2.2.2 listenModeLookupAlt (by decide)).2.2⟩

/-- C10: `SplitISCP` — and hence `ReadCommand` — panics on any command
shorter than three characters, and `ParseISCP` can produce such commands:
the payload `"!1A\r\n"` parses to the one-character command `"A"`. -/
theorem C10_short_command_panics :
    (∀ c : String, c.length < 3 →
      splitISCP c = none ∧ readCommand basicCommands c = .panics) ∧
    parseISCP (stringBytes "!1A" ++ [13, 10]) = .ok (stringBytes "A") := by
  constructor
  · intro c h
    have h3 : ¬3 ≤ c.length := by omega
    exact ⟨by simp [splitISCP, h3], by simp [readCommand, splitISCP, h3]⟩
  · decide

/-- C10 witness: the one-character command produced by `ParseISCP` from
the payload `"!1A\r\n"` makes `ReadCommand` panic. -/
theorem C10_short_command_panics_witness :
    "A".length < 3 ∧ splitISCP "A" = none ∧ readCommand basicCommands "A" = .panics :=
  ⟨by decide, (C10_short_command_panics.1 "A" (by decide)).1,
   (C10_short_command_panics.1 "A" (by decide)).2⟩

end Onkyoctl
